import Mathlib

/-!
Shallow embedding of the 2D transform editor
(`src/Image Formation/2D_editor.py`).

Coordinates are modelled as exact rationals (the Python code uses Qt
`qreal` doubles; all claims are about exact/epsilon equality of the
algebra, so ℚ is the faithful idealisation).  Qt library primitives used
by the code (`QRectF`, `QTransform`, `QLineF.angle`, scene item order)
are embedded following the documented Qt semantics and the Qt source,
since the Python file delegates to them.

State-bearing Qt objects become Lean structures; in-place mutation
becomes functional update.
-/

namespace Editor2D

/-- A 2D point, as `QPointF`. -/
structure Pt where
  x : ℚ
  y : ℚ
deriving DecidableEq, Repr

/-- A 3x3 homogeneous transform, as `QTransform` (entries `m11..m33`).
Qt applies a transform to a point as a row vector:
`(x, y, 1) * M`, then divides by the resulting `w` component. -/
structure Tr where
  m11 : ℚ
  m12 : ℚ
  m13 : ℚ
  m21 : ℚ
  m22 : ℚ
  m23 : ℚ
  m31 : ℚ
  m32 : ℚ
  m33 : ℚ
deriving DecidableEq, Repr

/-- The identity transform (`QTransform()` default). -/
def idT : Tr := ⟨1, 0, 0, 0, 1, 0, 0, 0, 1⟩

/-- A homogeneous coordinate triple (row vector). -/
structure V3 where
  a : ℚ
  b : ℚ
  c : ℚ
deriving DecidableEq, Repr

/-- Row vector times matrix, the Qt application convention. -/
def vecMul (v : V3) (t : Tr) : V3 :=
  ⟨v.a * t.m11 + v.b * t.m21 + v.c * t.m31,
   v.a * t.m12 + v.b * t.m22 + v.c * t.m32,
   v.a * t.m13 + v.b * t.m23 + v.c * t.m33⟩

/-- Matrix product, `QTransform::operator*`: `p * (mulT s t) = (p * s) * t`
(apply `s` first, then `t`). -/
def mulT (s t : Tr) : Tr :=
  ⟨s.m11 * t.m11 + s.m12 * t.m21 + s.m13 * t.m31,
   s.m11 * t.m12 + s.m12 * t.m22 + s.m13 * t.m32,
   s.m11 * t.m13 + s.m12 * t.m23 + s.m13 * t.m33,
   s.m21 * t.m11 + s.m22 * t.m21 + s.m23 * t.m31,
   s.m21 * t.m12 + s.m22 * t.m22 + s.m23 * t.m32,
   s.m21 * t.m13 + s.m22 * t.m23 + s.m23 * t.m33,
   s.m31 * t.m11 + s.m32 * t.m21 + s.m33 * t.m31,
   s.m31 * t.m12 + s.m32 * t.m22 + s.m33 * t.m32,
   s.m31 * t.m13 + s.m32 * t.m23 + s.m33 * t.m33⟩

/-- The homogeneous image of a point under a transform (before the
perspective division). -/
def homApply (t : Tr) (p : Pt) : V3 := vecMul ⟨p.x, p.y, 1⟩ t

/-- The `w` denominator Qt computes in its point-mapping macro. -/
def homW (t : Tr) (p : Pt) : ℚ := (homApply t p).c

/-- The `QTransform::map` on a `QPointF`: homogeneous application followed by
division by `w`.  Qt divides by `w` whenever it is nonzero; a zero `w`
(point sent to infinity) is undefined behaviour there and becomes
`none` here. -/
def mapPoint (t : Tr) (p : Pt) : Option Pt :=
  let v := homApply t p
  if v.c = 0 then none else some ⟨v.a / v.c, v.b / v.c⟩

/-- Determinant, `QTransform::determinant`. -/
def Tr.det (t : Tr) : ℚ :=
  t.m11 * (t.m33 * t.m22 - t.m32 * t.m23)
    - t.m21 * (t.m33 * t.m12 - t.m32 * t.m13)
    + t.m31 * (t.m23 * t.m12 - t.m22 * t.m13)

/-- Adjugate matrix, `QTransform::adjoint` (entry formulas from the Qt
source). -/
def Tr.adjoint (t : Tr) : Tr :=
  ⟨t.m22 * t.m33 - t.m23 * t.m32,
   t.m13 * t.m32 - t.m12 * t.m33,
   t.m12 * t.m23 - t.m13 * t.m22,
   t.m23 * t.m31 - t.m21 * t.m33,
   t.m11 * t.m33 - t.m13 * t.m31,
   t.m13 * t.m21 - t.m11 * t.m23,
   t.m21 * t.m32 - t.m22 * t.m31,
   t.m12 * t.m31 - t.m11 * t.m32,
   t.m11 * t.m22 - t.m12 * t.m21⟩

/-- Every entry multiplied by a scalar (`QTransform::operator/` divides
each entry; here `scaleTr d⁻¹ t`). -/
def scaleTr (c : ℚ) (t : Tr) : Tr :=
  ⟨c * t.m11, c * t.m12, c * t.m13,
   c * t.m21, c * t.m22, c * t.m23,
   c * t.m31, c * t.m32, c * t.m33⟩

/-- The `QTransform::inverted`: `adjoint() / determinant()` when the
determinant is nonzero, otherwise not invertible. -/
def inverted (t : Tr) : Option Tr :=
  if t.det = 0 then none else some (scaleTr t.det⁻¹ t.adjoint)

/-- A quadrilateral: the four corner points in the fixed order
top-left, top-right, bottom-right, bottom-left (a 4-point `QPolygonF`). -/
structure Quad where
  p0 : Pt
  p1 : Pt
  p2 : Pt
  p3 : Pt
deriving DecidableEq, Repr

/-- The `ax = dx0 - dx1 + dx2 - dx3` from `QTransform::squareToQuad`. -/
def quadAx (q : Quad) : ℚ := q.p0.x - q.p1.x + q.p2.x - q.p3.x

/-- The `ay = dy0 - dy1 + dy2 - dy3` from `QTransform::squareToQuad`. -/
def quadAy (q : Quad) : ℚ := q.p0.y - q.p1.y + q.p2.y - q.p3.y

/-- The `bottom` determinant of the projective branch of
`QTransform::squareToQuad`. -/
def stqBottom (q : Quad) : ℚ :=
  (q.p1.x - q.p2.x) * (q.p3.y - q.p2.y) - (q.p3.x - q.p2.x) * (q.p1.y - q.p2.y)

/-- The `g = gtop / bottom` from `QTransform::squareToQuad`. -/
def stqG (q : Quad) : ℚ :=
  (quadAx q * (q.p3.y - q.p2.y) - (q.p3.x - q.p2.x) * quadAy q) / stqBottom q

/-- The `h = htop / bottom` from `QTransform::squareToQuad`. -/
def stqH (q : Quad) : ℚ :=
  ((q.p1.x - q.p2.x) * quadAy q - quadAx q * (q.p1.y - q.p2.y)) / stqBottom q

/-- The affine branch of `QTransform::squareToQuad`
(taken when `ax = 0` and `ay = 0`). -/
def squareToQuadAffine (q : Quad) : Tr :=
  ⟨q.p1.x - q.p0.x, q.p1.y - q.p0.y, 0,
   q.p2.x - q.p1.x, q.p2.y - q.p1.y, 0,
   q.p0.x, q.p0.y, 1⟩

/-- The projective branch of `QTransform::squareToQuad`
(matrix `(a, c, g; b, d, h; dx0, dy0, 1)` in the Qt variable names). -/
def squareToQuadProj (q : Quad) : Tr :=
  ⟨q.p1.x - q.p0.x + stqG q * q.p1.x,
   q.p1.y - q.p0.y + stqG q * q.p1.y,
   stqG q,
   q.p3.x - q.p0.x + stqH q * q.p3.x,
   q.p3.y - q.p0.y + stqH q * q.p3.y,
   stqH q,
   q.p0.x, q.p0.y, 1⟩

/-- The `QTransform::squareToQuad`: the transform taking the unit square
corners `(0,0),(1,0),(1,1),(0,1)` to the given quad; fails when the
`bottom` determinant of the projective branch vanishes. -/
def squareToQuad (q : Quad) : Option Tr :=
  if quadAx q = 0 ∧ quadAy q = 0 then some (squareToQuadAffine q)
  else if stqBottom q = 0 then none
  else some (squareToQuadProj q)

/-- The `QTransform::quadToSquare`: the inverse of `squareToQuad`. -/
def quadToSquare (q : Quad) : Option Tr := (squareToQuad q).bind inverted

/-- The `QTransform::quadToQuad one two`: `quadToSquare one` composed with
`squareToQuad two` (Qt: `trans = quadToSquare(one); trans *= squareToQuad(two)`). -/
def quadToQuad (one two : Quad) : Option Tr :=
  match quadToSquare one, squareToQuad two with
  | some s, some t => some (mulT s t)
  | _, _ => none

/-- The homogeneous vector `v` is projectively the point `p`: its x and
y components equal `w` times the coordinates of the point. -/
def propTo (v : V3) (p : Pt) : Prop := v.a = v.c * p.x ∧ v.b = v.c * p.y

/-- The transform takes `a` to `b` as a projective correspondence, and
genuinely maps `a` to `b` (with perspective division) whenever the
denominator is nonzero. -/
def projMapsTo (t : Tr) (a b : Pt) : Prop :=
  propTo (homApply t a) b ∧ (homW t a ≠ 0 → mapPoint t a = some b)

/-- An axis-aligned rectangle, as `QRectF` (x, y, width, height).
Width/height may be negative, exactly as in Qt. -/
structure RectF where
  x : ℚ
  y : ℚ
  w : ℚ
  h : ℚ
deriving DecidableEq, Repr

def RectF.topLeft (r : RectF) : Pt := ⟨r.x, r.y⟩

def RectF.topRight (r : RectF) : Pt := ⟨r.x + r.w, r.y⟩

def RectF.bottomRight (r : RectF) : Pt := ⟨r.x + r.w, r.y + r.h⟩

def RectF.bottomLeft (r : RectF) : Pt := ⟨r.x, r.y + r.h⟩

def RectF.center (r : RectF) : Pt := ⟨r.x + r.w / 2, r.y + r.h / 2⟩

/-- The `QRectF::setTopLeft`: moves the top-left corner, keeping the
bottom-right corner fixed (the size changes). -/
def RectF.setTopLeft (r : RectF) (p : Pt) : RectF :=
  ⟨p.x, p.y, r.x + r.w - p.x, r.y + r.h - p.y⟩

/-- The `QRectF::setTopRight`: keeps the bottom-left corner fixed. -/
def RectF.setTopRight (r : RectF) (p : Pt) : RectF :=
  ⟨r.x, p.y, p.x - r.x, r.y + r.h - p.y⟩

/-- The `QRectF::setBottomLeft`: keeps the top-right corner fixed. -/
def RectF.setBottomLeft (r : RectF) (p : Pt) : RectF :=
  ⟨p.x, r.y, r.x + r.w - p.x, p.y - r.y⟩

/-- The `QRectF::setBottomRight`: keeps the top-left corner fixed. -/
def RectF.setBottomRight (r : RectF) (p : Pt) : RectF :=
  ⟨r.x, r.y, p.x - r.x, p.y - r.y⟩

/-- The `QRectF(p1, p2)` two-point constructor: top-left `p1`,
bottom-right `p2` (sizes may come out negative). -/
def RectF.fromPoints (p1 p2 : Pt) : RectF :=
  ⟨p1.x, p1.y, p2.x - p1.x, p2.y - p1.y⟩

/-- The `QRectF::normalized`: flips a negative width or height so both
become non-negative. -/
def RectF.normalized (r : RectF) : RectF :=
  let r1 := if r.w < 0 then { r with x := r.x + r.w, w := -r.w } else r
  if r1.h < 0 then { r1 with y := r1.y + r1.h, h := -r1.h } else r1

/-- The four corners of a rectangle in the order taken by
`TransformableRectItem.__init__` / `mouseReleaseEvent`:
topLeft, topRight, bottomRight, bottomLeft. -/
def rectCorners (r : RectF) : Quad :=
  ⟨r.topLeft, r.topRight, r.bottomRight, r.bottomLeft⟩

/-- The `atan2` (as `qAtan2` / C `atan2`), by branch on the quadrant. -/
noncomputable def atan2 (y x : ℝ) : ℝ :=
  if 0 < x then Real.arctan (y / x)
  else if x < 0 ∧ 0 ≤ y then Real.arctan (y / x) + Real.pi
  else if x < 0 then Real.arctan (y / x) - Real.pi
  else if 0 < y then Real.pi / 2
  else if y < 0 then -(Real.pi / 2)
  else 0

/-- The `theta` local of `QLineF::angle`:
`qRadiansToDegrees(qAtan2(-dy, dx))`. -/
noncomputable def lineAngleTheta (p1 p2 : Pt) : ℝ :=
  atan2 (-(((p2.y : ℝ)) - ((p1.y : ℝ)))) (((p2.x : ℝ)) - ((p1.x : ℝ))) * 180 / Real.pi

/-- The `theta_normalized` local of `QLineF::angle`: negative angles
shifted into `[0, 360)`. -/
noncomputable def lineAngleNorm (theta : ℝ) : ℝ :=
  if theta < 0 then theta + 360 else theta

/-- The `QLineF(p1, p2).angle()`: the angle of the line in degrees,
counter-clockwise from the positive x axis, in `[0, 360)`; Qt maps a
(fuzzily) full turn back to `0`. -/
noncomputable def lineAngle (p1 p2 : Pt) : ℝ :=
  if lineAngleNorm (lineAngleTheta p1 p2) = 360 then 0
  else lineAngleNorm (lineAngleTheta p1 p2)

/-- The transform modes (`self.transform_mode` strings). -/
inductive TMode where
  | translation
  | rotation
  | scaling
  | affine
  | perspective
deriving DecidableEq, Repr

/-- Handle names (the strings used in `self.handles` and `index_map`). -/
inductive HandleName where
  | top_left
  | top_right
  | bottom_left
  | bottom_right
  | rotate
deriving DecidableEq, Repr

/-- One entry of `self.handles`: `(handle_name, QRectF)`. -/
structure Handle where
  name : HandleName
  region : RectF
deriving DecidableEq, Repr

/-- The `self.handle_size = 8.0`. -/
def handle_size : ℚ := 8

/-- An `s`-sized square handle region centred on a point `c`:
`QRectF(c - QPointF(s/2, s/2), QSizeF(s, s))`. -/
def handleRegion (c : Pt) : RectF :=
  ⟨c.x - handle_size / 2, c.y - handle_size / 2, handle_size, handle_size⟩

/-- The `TransformableRectItem.update_handles`: corner handles (in source
order top_left, top_right, bottom_left, bottom_right) for the scaling /
affine / perspective modes, and a rotate handle 20 units above the top
edge midpoint for rotation mode. -/
def updateHandles (mode : TMode) (rect : RectF) : List Handle :=
  (if mode = TMode.scaling ∨ mode = TMode.affine ∨ mode = TMode.perspective then
    [⟨HandleName.top_left, handleRegion rect.topLeft⟩,
     ⟨HandleName.top_right, handleRegion rect.topRight⟩,
     ⟨HandleName.bottom_left, handleRegion rect.bottomLeft⟩,
     ⟨HandleName.bottom_right, handleRegion rect.bottomRight⟩]
  else [])
  ++
  (if mode = TMode.rotation then
    [⟨HandleName.rotate,
      handleRegion ⟨(rect.topLeft.x + rect.topRight.x) / 2, rect.y - 20⟩⟩]
  else [])

/-- The state of one `TransformableRectItem`.  `rect` is the base
rectangle (`self.rect()`), `transform` the applied `QTransform`
(`self.transform()`, set only via `setTransform`), `rotation` the
separate `QGraphicsItem` rotation property (set via `setRotation`,
default 0), and `posX`/`posY` the item position moved by the Qt
`ItemIsMovable` translation drags (default 0). -/
structure Item where
  rect : RectF
  transform : Tr
  rotation : ℝ
  posX : ℚ
  posY : ℚ
  transform_mode : TMode
  handles : List Handle
  handle_selected : Option HandleName
  original_rect : RectF
  original_corners : Quad

/-- The `TransformableRectItem.__init__(rect)`. -/
def mkItem (rect : RectF) : Item :=
  { rect := rect
    transform := idT
    rotation := 0
    posX := 0
    posY := 0
    transform_mode := TMode.translation
    handles := []
    handle_selected := none
    original_rect := rect
    original_corners := rectCorners rect }

/-- The `TransformableRectItem.resize_item(pos)`: move the rectangle corner
named by the active handle to `pos` (no normalization), then recompute
the handles. -/
def resizeItem (it : Item) (pos : Pt) : Item :=
  let rect :=
    match it.handle_selected with
    | some HandleName.top_left => it.rect.setTopLeft pos
    | some HandleName.top_right => it.rect.setTopRight pos
    | some HandleName.bottom_left => it.rect.setBottomLeft pos
    | some HandleName.bottom_right => it.rect.setBottomRight pos
    | _ => it.rect
  { it with rect := rect, handles := updateHandles it.transform_mode rect }

/-- The `TransformableRectItem.rotate_item(pos)`: `setRotation(-angle)` where
`angle` is the `QLineF` angle from the rect center to `pos`.
`setRotation` writes the separate rotation property only. -/
noncomputable def rotateItem (it : Item) (pos : Pt) : Item :=
  { it with rotation := -(lineAngle it.rect.center pos) }

/-- The corner lookup of `affine_transform_item` (its `index_map`):
replaces the quad corner named by the handle with `pos`; `none` when
the handle is not a corner handle (not a key of the map). -/
def replaceCorner (q : Quad) (h : HandleName) (pos : Pt) : Option Quad :=
  match h with
  | HandleName.top_left => some { q with p0 := pos }
  | HandleName.top_right => some { q with p1 := pos }
  | HandleName.bottom_right => some { q with p2 := pos }
  | HandleName.bottom_left => some { q with p3 := pos }
  | HandleName.rotate => none

/-- The `TransformableRectItem.affine_transform_item(pos)`: replace the
active corner of the frozen `original_corners` by `pos`, solve
`QTransform.quadToQuad`, and `setTransform(t)` only on success. -/
def affineTransformItem (it : Item) (pos : Pt) : Item :=
  match it.handle_selected with
  | none => it
  | some h =>
    match replaceCorner it.original_corners h pos with
    | none => it
    | some nc =>
      match quadToQuad it.original_corners nc with
      | some t => { it with transform := t }
      | none => it

/-- The `TransformableRectItem.mouseMoveEvent` dispatch: with an active
handle, scaling resizes, rotation rotates, affine and perspective both
run the quad-to-quad solve; otherwise (and in translation mode) the
event falls through to the generic Qt movable-item drag, which touches
only the item position (modelled separately by `moveItem`). -/
noncomputable def itemMouseMove (it : Item) (pos : Pt) : Item :=
  match it.handle_selected with
  | some _ =>
    match it.transform_mode with
    | TMode.scaling => resizeItem it pos
    | TMode.rotation => rotateItem it pos
    | TMode.affine => affineTransformItem it pos
    | TMode.perspective => affineTransformItem it pos
    | TMode.translation => it
  | none => it

/-- The Qt `ItemIsMovable` translation drag: moves the item position by
the pointer delta; rect, transform and rotation are untouched. -/
def moveItem (it : Item) (dx dy : ℚ) : Item :=
  { it with posX := it.posX + dx, posY := it.posY + dy }

/-- The `TransformableRectItem.mouseReleaseEvent`: clear the active handle
and snapshot the current rect and its corners as the new original
geometry. -/
def itemMouseRelease (it : Item) : Item :=
  { it with handle_selected := none,
            original_rect := it.rect,
            original_corners := rectCorners it.rect }

/-- One record of the persisted JSON document (§6): the rect fields and
the nine transform entries written by `save_rectangles`. -/
structure SavedRecord where
  x : ℚ
  y : ℚ
  width : ℚ
  height : ℚ
  m11 : ℚ
  m12 : ℚ
  m13 : ℚ
  m21 : ℚ
  m22 : ℚ
  m23 : ℚ
  m31 : ℚ
  m32 : ℚ
  m33 : ℚ
deriving DecidableEq, Repr

/-- The record `save_rectangles` builds for one item: a function of
`item.rect()` and `item.transform()` only. -/
def mkRecord (it : Item) : SavedRecord :=
  ⟨it.rect.x, it.rect.y, it.rect.w, it.rect.h,
   it.transform.m11, it.transform.m12, it.transform.m13,
   it.transform.m21, it.transform.m22, it.transform.m23,
   it.transform.m31, it.transform.m32, it.transform.m33⟩

/-- The `MainWindow` state: the shape collection of the scene in insertion
order (`scene.addItem` appends), the global mode, and the
draw-new-rectangle gesture state.  The in-progress `current_rect` is
modelled alongside the committed collection and appended on release. -/
structure Window where
  items : List Item
  transform_mode : TMode
  drawing : Bool
  start_pos : Pt
  current_rect : Option Item

/-- The `QGraphicsScene::items()`: all items in descending stacking order.
With the default zero z values the later-added item stacks on top, so
this is the reverse of insertion order (Qt documented semantics). -/
def sceneItems (w : Window) : List Item := w.items.reverse

/-- The `MainWindow.set_transform_mode(mode)`: store the global mode and,
for every `TransformableRectItem` in the scene, set its cached mode and
recompute its handles. -/
def setTransformMode (w : Window) (m : TMode) : Window :=
  { w with transform_mode := m,
           items := w.items.map fun it =>
             { it with transform_mode := m,
                       handles := updateHandles m it.rect } }

/-- The `MainWindow.mousePressEvent` on empty space: begin a draw gesture
with a zero-size rectangle at the press point, tagged with the current
mode. -/
def windowMousePress (w : Window) (p : Pt) : Window :=
  { w with start_pos := p,
           drawing := true,
           current_rect := some { mkItem (RectF.fromPoints p p) with
                                    transform_mode := w.transform_mode } }

/-- The rectangle assigned on each draw-gesture move:
`QRectF(self.start_pos, current_pos).normalized()`. -/
def drawStepRect (start cur : Pt) : RectF := (RectF.fromPoints start cur).normalized

/-- The `MainWindow.mouseMoveEvent` while drawing: the rect of the pending shape
spans from the gesture start to the pointer, normalized. -/
def windowMouseMove (w : Window) (cur : Pt) : Window :=
  if w.drawing then
    match w.current_rect with
    | some it => { w with current_rect := some { it with rect := drawStepRect w.start_pos cur } }
    | none => w
  else w

/-- The `MainWindow.mouseReleaseEvent` while drawing: finalize the pending
shape (handles recomputed, original geometry snapshotted) and commit it
to the collection. -/
def windowMouseRelease (w : Window) : Window :=
  if w.drawing then
    match w.current_rect with
    | some it =>
      let fin := { it with handles := updateHandles it.transform_mode it.rect,
                           original_rect := it.rect,
                           original_corners := rectCorners it.rect }
      { w with drawing := false, current_rect := none, items := w.items ++ [fin] }
    | none => { w with drawing := false }
  else w

/-- The `MainWindow.save_rectangles` body: one record per scene item, in
`scene.items()` order (descending stacking order). -/
def saveRecords (w : Window) : List SavedRecord := (sceneItems w).map mkRecord

/-- The parsed JSON value of one document entry.  A field that is absent
from the JSON object is `none` (subscripting it raises `KeyError`). -/
structure TransformJson where
  m11 : Option ℚ
  m12 : Option ℚ
  m13 : Option ℚ
  m21 : Option ℚ
  m22 : Option ℚ
  m23 : Option ℚ
  m31 : Option ℚ
  m32 : Option ℚ
  m33 : Option ℚ

/-- One parsed document entry; `transform` may itself be absent. -/
structure RecordJson where
  x : Option ℚ
  y : Option ℚ
  width : Option ℚ
  height : Option ℚ
  transform : Option TransformJson

/-- The loop body of `load_rectangles` for one record: read the four
rect fields and the nine transform entries (any missing key raises),
build the item, set its transform, assign the current global mode and
recompute handles.  `none` models the raised `KeyError`. -/
def parseRecord (mode : TMode) (r : RecordJson) : Option Item := do
  let x ← r.x
  let y ← r.y
  let width ← r.width
  let height ← r.height
  let td ← r.transform
  let m11 ← td.m11
  let m12 ← td.m12
  let m13 ← td.m13
  let m21 ← td.m21
  let m22 ← td.m22
  let m23 ← td.m23
  let m31 ← td.m31
  let m32 ← td.m32
  let m33 ← td.m33
  let rect : RectF := ⟨x, y, width, height⟩
  pure { mkItem rect with
           transform := ⟨m11, m12, m13, m21, m22, m23, m31, m32, m33⟩,
           transform_mode := mode,
           handles := updateHandles mode rect }

/-- The `for rect_data in rects` loop of `load_rectangles`: items are
appended one by one; the first failing record raises out of the loop,
leaving the scene holding the prefix built so far.  The `Bool` is
whether the whole loop completed (no error dialog). -/
def loadLoop (w : Window) : List RecordJson → Window × Bool
  | [] => (w, true)
  | r :: rs =>
    match parseRecord w.transform_mode r with
    | none => (w, false)
    | some it => loadLoop { w with items := w.items ++ [it] } rs

/-- The `MainWindow.load_rectangles` with the parsed document as input:
`none` models a failed `json.load` (malformed JSON or I/O error), which
raises before `scene.clear()`; a successfully parsed document first
clears the scene and then runs the per-record loop. -/
def loadRectangles (w : Window) (doc : Option (List RecordJson)) : Window × Bool :=
  match doc with
  | none => (w, false)
  | some recs => loadLoop { w with items := [] } recs

/-- The JSON object written by `json.dump` for one record: every field
present (Python float serialization round-trips exactly; values here
are exact rationals). -/
def recordToJson (r : SavedRecord) : RecordJson :=
  { x := some r.x, y := some r.y, width := some r.width, height := some r.height,
    transform := some ⟨some r.m11, some r.m12, some r.m13,
                       some r.m21, some r.m22, some r.m23,
                       some r.m31, some r.m32, some r.m33⟩ }

/-- Application of an embedded transform to real coordinates (the same
homogeneous formula as `mapPoint`, on ℝ), used to state what a claimed
transform would do to arbitrary points. -/
noncomputable def mapPointR (t : Tr) (x y : ℝ) : ℝ × ℝ :=
  let w := (t.m13 : ℝ) * x + (t.m23 : ℝ) * y + (t.m33 : ℝ)
  (((t.m11 : ℝ) * x + (t.m21 : ℝ) * y + (t.m31 : ℝ)) / w,
   ((t.m12 : ℝ) * x + (t.m22 : ℝ) * y + (t.m32 : ℝ)) / w)

/-- Rotation of the plane by `deg` degrees about a centre `c`, in the Qt
screen orientation (positive angle turns the positive x axis towards the
positive y axis). -/
noncomputable def rotateAboutDeg (c : Pt) (deg : ℝ) (x y : ℝ) : ℝ × ℝ :=
  let a := deg * Real.pi / 180
  ((c.x : ℝ) + (x - (c.x : ℝ)) * Real.cos a - (y - (c.y : ℝ)) * Real.sin a,
   (c.y : ℝ) + (x - (c.x : ℝ)) * Real.sin a + (y - (c.y : ℝ)) * Real.cos a)

/-- "`t` is the rotation by `deg` degrees pivoting about `c`" as a
pointwise statement about the applied 3x3 transform. -/
noncomputable def IsRotationAboutCenterDeg (t : Tr) (c : Pt) (deg : ℝ) : Prop :=
  ∀ x y : ℝ, mapPointR t x y = rotateAboutDeg c deg x y

/-- The claim under test for the rotation drag: the rotation is set to
the negated ray angle AND that rotation is applied as a mutation of the
3x3 applied transform of the shape pivoting about its own centre. -/
noncomputable def RotationDragClaim : Prop :=
  ∀ (it : Item) (pos : Pt),
    Item.rotation (rotateItem it pos) = -(lineAngle it.rect.center pos) ∧
    IsRotationAboutCenterDeg (rotateItem it pos).transform it.rect.center
      ( Item.rotation (rotateItem it pos))

/-- The rect/transform data of an item compared by the round-trip claim. -/
def itemGeom (it : Item) : RectF × Tr := (it.rect, it.transform)

/-- Every observable field of an item except its cached mode tag (used
to compare the behaviour of two modes). -/
def itemObs (it : Item) :
    RectF × Tr × ℝ × (ℚ × ℚ) × List Handle × Option HandleName × RectF × Quad :=
  (it.rect, it.transform, it.rotation, (it.posX, it.posY), it.handles,
   it.handle_selected, it.original_rect, it.original_corners)

/-- Concrete shape for the affine-drag scenario: base rect
`(0, 0, 100, 50)`, so `original_corners = [(0,0),(100,0),(100,50),(0,50)]`,
affine mode, `top_left` handle active. -/
def itAffine : Item :=
  { mkItem ⟨0, 0, 100, 50⟩ with
      transform_mode := TMode.affine,
      handles := updateHandles TMode.affine ⟨0, 0, 100, 50⟩,
      handle_selected := some HandleName.top_left }

/-- The quad-to-quad solution for the affine scenario (computed by the
embedded `quadToQuad`). -/
def tAffine : Tr := ⟨7/5, 1/10, 1/500, 2/5, 7/5, 1/250, -20, -10, 1⟩

/-- Concrete shape for the degenerate-drag scenario: same base rect,
`top_right` handle active. -/
def itDegenerate : Item :=
  { mkItem ⟨0, 0, 100, 50⟩ with
      transform_mode := TMode.perspective,
      handles := updateHandles TMode.perspective ⟨0, 0, 100, 50⟩,
      handle_selected := some HandleName.top_right }

/-- Concrete shape for the scaling-drag counterexample:
`bottom_right` handle active in scaling mode. -/
def itScaling : Item :=
  { mkItem ⟨0, 0, 100, 50⟩ with
      transform_mode := TMode.scaling,
      handles := updateHandles TMode.scaling ⟨0, 0, 100, 50⟩,
      handle_selected := some HandleName.bottom_right }

/-- Concrete shape for the rotation counterexample: base rect centred on
the origin, rotate handle active. -/
def itRotation : Item :=
  { mkItem ⟨-50, -25, 100, 50⟩ with
      transform_mode := TMode.rotation,
      handles := updateHandles TMode.rotation ⟨-50, -25, 100, 50⟩,
      handle_selected := some HandleName.rotate }

/-- A window holding one committed shape (used by the load
counterexample). -/
def wOneItem : Window :=
  { items := [mkItem ⟨1, 2, 3, 4⟩]
    transform_mode := TMode.translation
    drawing := false
    start_pos := ⟨0, 0⟩
    current_rect := none }

/-- A window holding two distinct committed shapes (used by the save
order counterexample). -/
def wTwoItems : Window :=
  { items := [mkItem ⟨0, 0, 1, 1⟩, mkItem ⟨2, 2, 3, 3⟩]
    transform_mode := TMode.translation
    drawing := false
    start_pos := ⟨0, 0⟩
    current_rect := none }

/-- A complete document entry (all fields present, identity transform). -/
def goodJson : RecordJson :=
  recordToJson (mkRecord (mkItem ⟨5, 6, 7, 8⟩))

/-- A document entry missing its `"width"` field. -/
def badJson : RecordJson :=
  { x := some 0, y := some 0, width := none, height := some 5,
    transform := some ⟨some 1, some 0, some 0, some 0, some 1, some 0,
                       some 0, some 0, some 1⟩ }

/- ------------------------------------------------------------------
Supporting lemmas: the algebra of the Qt quad-to-quad solve.
------------------------------------------------------------------ -/

theorem v3ext (u v : V3) (h1 : u.a = v.a) (h2 : u.b = v.b) (h3 : u.c = v.c) :
    u = v := by
  cases u
  cases v
  simp only [V3.mk.injEq]
  exact ⟨h1, h2, h3⟩

theorem vecMul_mulT (v : V3) (s t : Tr) :
    vecMul v (mulT s t) = vecMul (vecMul v s) t := by
  simp only [vecMul, mulT, V3.mk.injEq]
  refine ⟨by ring, by ring, by ring⟩

theorem vecMul_idT (v : V3) : vecMul v idT = v := by
  simp [vecMul, idT]

theorem vecMul_scale (c : ℚ) (v : V3) (t : Tr) :
    vecMul ⟨c * v.a, c * v.b, c * v.c⟩ t =
      ⟨c * (vecMul v t).a, c * (vecMul v t).b, c * (vecMul v t).c⟩ := by
  simp only [vecMul, V3.mk.injEq]
  refine ⟨by ring, by ring, by ring⟩

theorem propTo_mapPoint (t : Tr) (a b : Pt) (h : propTo (homApply t a) b)
    (hw : homW t a ≠ 0) : mapPoint t a = some b := by
  obtain ⟨h1, h2⟩ := h
  simp only [homW] at hw
  obtain ⟨bx, byy⟩ := b
  simp only at h1 h2
  unfold mapPoint
  rw [if_neg hw]
  rw [h1, h2, mul_div_cancel_left₀ _ hw, mul_div_cancel_left₀ _ hw]

theorem squareToQuad_maps (q : Quad) (t : Tr) (h : squareToQuad q = some t) :
    propTo (vecMul ⟨0, 0, 1⟩ t) q.p0 ∧ propTo (vecMul ⟨1, 0, 1⟩ t) q.p1 ∧
    propTo (vecMul ⟨1, 1, 1⟩ t) q.p2 ∧ propTo (vecMul ⟨0, 1, 1⟩ t) q.p3 := by
  unfold squareToQuad at h
  by_cases h1 : quadAx q = 0 ∧ quadAy q = 0
  · rw [if_pos h1] at h
    injection h with h
    subst h
    obtain ⟨hax, hay⟩ := h1
    simp only [quadAx] at hax
    simp only [quadAy] at hay
    simp only [propTo, vecMul, squareToQuadAffine]
    refine ⟨⟨?_, ?_⟩, ⟨?_, ?_⟩, ⟨?_, ?_⟩, ⟨?_, ?_⟩⟩ <;> linarith [hax, hay]
  · rw [if_neg h1] at h
    by_cases h2 : stqBottom q = 0
    · rw [if_pos h2] at h
      exact absurd h (by simp)
    · rw [if_neg h2] at h
      injection h with h
      subst h
      have hb : stqBottom q ≠ 0 := h2
      simp only [stqBottom] at hb
      simp only [propTo, vecMul, squareToQuadProj, stqG, stqH, quadAx, quadAy,
        stqBottom]
      refine ⟨⟨?_, ?_⟩, ⟨?_, ?_⟩, ⟨?_, ?_⟩, ⟨?_, ?_⟩⟩ <;> (field_simp <;> ring)

theorem mulT_inverted (t ti : Tr) (h : inverted t = some ti) : mulT t ti = idT := by
  unfold inverted at h
  by_cases hd : t.det = 0
  · rw [if_pos hd] at h
    exact absurd h (by simp)
  · rw [if_neg hd] at h
    injection h with h
    subst h
    have hdn : t.det ≠ 0 := hd
    simp only [Tr.det] at hdn
    simp only [mulT, scaleTr, Tr.adjoint, idT, Tr.det, Tr.mk.injEq]
    refine ⟨?_, ?_, ?_, ?_, ?_, ?_, ?_, ?_, ?_⟩ <;>
      · field_simp
        ring

theorem corner_maps (A Ai B : Tr) (hAA : mulT A Ai = idT) (sx sy : ℚ)
    (p pb : Pt) (hA : propTo (vecMul ⟨sx, sy, 1⟩ A) p)
    (hB : propTo (vecMul ⟨sx, sy, 1⟩ B) pb) :
    projMapsTo (mulT Ai B) p pb := by
  obtain ⟨ha1, ha2⟩ := hA
  have f1 : vecMul (vecMul ⟨sx, sy, 1⟩ A) Ai = ⟨sx, sy, 1⟩ := by
    rw [← vecMul_mulT, hAA, vecMul_idT]
  have f2 : vecMul ⟨sx, sy, 1⟩ A =
      ⟨(vecMul ⟨sx, sy, 1⟩ A).c * p.x, (vecMul ⟨sx, sy, 1⟩ A).c * p.y,
       (vecMul ⟨sx, sy, 1⟩ A).c * 1⟩ :=
    v3ext _ _ ha1 ha2 (mul_one _).symm
  have f4 : (⟨(vecMul ⟨sx, sy, 1⟩ A).c * (vecMul ⟨p.x, p.y, 1⟩ Ai).a,
      (vecMul ⟨sx, sy, 1⟩ A).c * (vecMul ⟨p.x, p.y, 1⟩ Ai).b,
      (vecMul ⟨sx, sy, 1⟩ A).c * (vecMul ⟨p.x, p.y, 1⟩ Ai).c⟩ : V3) =
      ⟨sx, sy, 1⟩ :=
    (vecMul_scale _ _ _).symm.trans
      ((congrArg (fun v => vecMul v Ai) f2.symm).trans f1)
  have g3 := congrArg V3.c f4
  simp only at g3
  have hwne : (vecMul ⟨sx, sy, 1⟩ A).c ≠ 0 := by
    intro h0
    rw [h0, zero_mul] at g3
    exact one_ne_zero g3.symm
  have f6 : vecMul ⟨sx, sy, 1⟩ B =
      ⟨(vecMul ⟨sx, sy, 1⟩ A).c * (vecMul (vecMul ⟨p.x, p.y, 1⟩ Ai) B).a,
       (vecMul ⟨sx, sy, 1⟩ A).c * (vecMul (vecMul ⟨p.x, p.y, 1⟩ Ai) B).b,
       (vecMul ⟨sx, sy, 1⟩ A).c * (vecMul (vecMul ⟨p.x, p.y, 1⟩ Ai) B).c⟩ :=
    (congrArg (fun v => vecMul v B) f4.symm).trans (vecMul_scale _ _ _)
  obtain ⟨hb1, hb2⟩ := hB
  rw [f6] at hb1 hb2
  simp only at hb1 hb2
  have hax : (vecMul (vecMul ⟨p.x, p.y, 1⟩ Ai) B).a =
      (vecMul (vecMul ⟨p.x, p.y, 1⟩ Ai) B).c * pb.x := by
    apply mul_left_cancel₀ hwne
    rw [hb1]
    ring
  have hay : (vecMul (vecMul ⟨p.x, p.y, 1⟩ Ai) B).b =
      (vecMul (vecMul ⟨p.x, p.y, 1⟩ Ai) B).c * pb.y := by
    apply mul_left_cancel₀ hwne
    rw [hb2]
    ring
  have hprop : propTo (homApply (mulT Ai B) p) pb := by
    rw [homApply, vecMul_mulT]
    exact ⟨hax, hay⟩
  exact ⟨hprop, fun hw => propTo_mapPoint _ _ _ hprop hw⟩

theorem quadToQuad_maps (one two : Quad) (t : Tr) (h : quadToQuad one two = some t) :
    projMapsTo t one.p0 two.p0 ∧ projMapsTo t one.p1 two.p1 ∧
    projMapsTo t one.p2 two.p2 ∧ projMapsTo t one.p3 two.p3 := by
  unfold quadToQuad at h
  split at h
  · rename_i s t2 hqs hstq
    injection h with h
    subst h
    unfold quadToSquare at hqs
    obtain ⟨A, hsqA, hinv⟩ := Option.bind_eq_some.mp hqs
    have hAA : mulT A s = idT := mulT_inverted A s hinv
    obtain ⟨hA0, hA1, hA2, hA3⟩ := squareToQuad_maps one A hsqA
    obtain ⟨hB0, hB1, hB2, hB3⟩ := squareToQuad_maps two t2 hstq
    exact ⟨corner_maps A s t2 hAA 0 0 _ _ hA0 hB0,
           corner_maps A s t2 hAA 1 0 _ _ hA1 hB1,
           corner_maps A s t2 hAA 1 1 _ _ hA2 hB2,
           corner_maps A s t2 hAA 0 1 _ _ hA3 hB3⟩
  · exact absurd h (by simp)

/- ------------------------------------------------------------------
Claim theorems.
------------------------------------------------------------------ -/

/-- C4: for every affine/perspective drag with an active corner handle,
the transform installed by `affine_transform_item` is the quad-to-quad
solution taking the frozen `original_corners` to the same corners with
the active one replaced by the pointer position: it maps each original
corner to the corresponding new corner (projectively always, and with
genuine perspective division whenever the denominator is nonzero). -/
theorem affine_drag_quad_to_quad (it : Item) (pos : Pt) (h : HandleName)
    (nc : Quad) (t : Tr) (hsel : it.handle_selected = some h)
    (hrep : replaceCorner it.original_corners h pos = some nc)
    (hsolve : quadToQuad it.original_corners nc = some t) :
    (affineTransformItem it pos).transform = t ∧
    projMapsTo t it.original_corners.p0 nc.p0 ∧
    projMapsTo t it.original_corners.p1 nc.p1 ∧
    projMapsTo t it.original_corners.p2 nc.p2 ∧
    projMapsTo t it.original_corners.p3 nc.p3 := by
  have hmaps := quadToQuad_maps _ _ _ hsolve
  refine ⟨?_, hmaps.1, hmaps.2.1, hmaps.2.2.1, hmaps.2.2.2⟩
  simp only [affineTransformItem, hsel, hrep, hsolve]

/-- Witness for C4, the affine scenario of the spec: original corners
`[(0,0),(100,0),(100,50),(0,50)]`, `top_left` dragged to `(-20,-10)`;
the installed transform maps `(0,0)` to `(-20,-10)` and fixes the other
three corners exactly. -/
theorem affine_drag_quad_to_quad_witness :
    (affineTransformItem itAffine ⟨-20, -10⟩).transform = tAffine ∧
    mapPoint tAffine ⟨0, 0⟩ = some ⟨-20, -10⟩ ∧
    mapPoint tAffine ⟨100, 0⟩ = some ⟨100, 0⟩ ∧
    mapPoint tAffine ⟨100, 50⟩ = some ⟨100, 50⟩ ∧
    mapPoint tAffine ⟨0, 50⟩ = some ⟨0, 50⟩ := by
  have horig : itAffine.original_corners = ⟨⟨0, 0⟩, ⟨100, 0⟩, ⟨100, 50⟩, ⟨0, 50⟩⟩ := by
    norm_num [itAffine, mkItem, rectCorners, RectF.topLeft, RectF.topRight,
      RectF.bottomRight, RectF.bottomLeft, Quad.mk.injEq, Pt.mk.injEq]
  have h := affine_drag_quad_to_quad itAffine ⟨-20, -10⟩ HandleName.top_left
    ⟨⟨-20, -10⟩, ⟨100, 0⟩, ⟨100, 50⟩, ⟨0, 50⟩⟩ tAffine rfl ?hrep ?hsolve
  case hrep =>
    rw [horig]
    rfl
  case hsolve =>
    rw [horig]
    norm_num [quadToQuad, quadToSquare, squareToQuad, quadAx, quadAy, stqBottom,
      stqG, stqH, squareToQuadAffine, squareToQuadProj, inverted, Tr.det,
      Tr.adjoint, scaleTr, mulT, tAffine, Tr.mk.injEq, Option.some_bind]
  rw [horig] at h
  simp only at h
  refine ⟨h.1, h.2.1.2 ?w0, h.2.2.1.2 ?w1, h.2.2.2.1.2 ?w2, h.2.2.2.2.2 ?w3⟩
  case w0 => norm_num [homW, homApply, vecMul, tAffine]
  case w1 => norm_num [homW, homApply, vecMul, tAffine]
  case w2 => norm_num [homW, homApply, vecMul, tAffine]
  case w3 => norm_num [homW, homApply, vecMul, tAffine]

/-- C5: when the quad-to-quad solve fails (degenerate correspondence),
the drag step leaves the shape entirely unchanged — in particular the
transform is exactly what it was before. -/
theorem degenerate_drag_no_mutation (it : Item) (pos : Pt) (h : HandleName)
    (nc : Quad) (hsel : it.handle_selected = some h)
    (hrep : replaceCorner it.original_corners h pos = some nc)
    (hsolve : quadToQuad it.original_corners nc = none) :
    affineTransformItem it pos = it := by
  simp only [affineTransformItem, hsel, hrep, hsolve]

/-- Witness for C5: dragging `top_right` of the rect `(0,0,100,50)` to
`(50,50)` makes the three corners `p1, p2, p3` of the target quad
collinear, the solve fails, and the item is unchanged. -/
theorem degenerate_drag_no_mutation_witness :
    affineTransformItem itDegenerate ⟨50, 50⟩ = itDegenerate := by
  have horig : itDegenerate.original_corners = ⟨⟨0, 0⟩, ⟨100, 0⟩, ⟨100, 50⟩, ⟨0, 50⟩⟩ := by
    norm_num [itDegenerate, mkItem, rectCorners, RectF.topLeft, RectF.topRight,
      RectF.bottomRight, RectF.bottomLeft, Quad.mk.injEq, Pt.mk.injEq]
  refine degenerate_drag_no_mutation itDegenerate ⟨50, 50⟩ HandleName.top_right
    ⟨⟨0, 0⟩, ⟨50, 50⟩, ⟨100, 50⟩, ⟨0, 50⟩⟩ rfl ?_ ?_
  · rw [horig]
    rfl
  · rw [horig]
    norm_num [quadToQuad, quadToSquare, squareToQuad, quadAx, quadAy, stqBottom,
      stqG, stqH, squareToQuadAffine, squareToQuadProj, inverted, Tr.det,
      Tr.adjoint, scaleTr, mulT, Option.some_bind]

/-- C8: affine mode and perspective mode are behaviourally identical —
the same handle layout and, for every shape state and drag input, the
same drag result (every field except the cached mode tag). -/
theorem affine_perspective_identical (it : Item) (p : Pt) (r : RectF) :
    itemObs (itemMouseMove { it with transform_mode := TMode.affine } p) =
      itemObs (itemMouseMove { it with transform_mode := TMode.perspective } p) ∧
    updateHandles TMode.affine r = updateHandles TMode.perspective r := by
  constructor
  · cases hs : it.handle_selected with
    | none => simp [itemMouseMove, hs, itemObs]
    | some h =>
      simp only [itemMouseMove, hs, affineTransformItem]
      cases hrep : replaceCorner it.original_corners h p with
      | none => simp [hrep, itemObs]
      | some nc =>
        cases hq : quadToQuad it.original_corners nc with
        | none => simp [hrep, hq, itemObs]
        | some t => simp [hrep, hq, itemObs]
  · simp [updateHandles]

/-- C10: the persisted record of a shape is a function of its base rect
and its set 3x3 transform only; translation drags (item position) and
rotation drags (the separate rotation property) do not change it. -/
theorem record_depends_only_rect_transform :
    (∀ a b : Item, a.rect = b.rect → a.transform = b.transform →
      mkRecord a = mkRecord b) ∧
    (∀ (it : Item) (p : Pt), mkRecord (rotateItem it p) = mkRecord it) ∧
    (∀ (it : Item) (dx dy : ℚ), mkRecord (moveItem it dx dy) = mkRecord it) := by
  refine ⟨?_, ?_, ?_⟩
  · intro a b hr ht
    simp [mkRecord, hr, ht]
  · intro it p
    rfl
  · intro it dx dy
    rfl

/-- Witness for C10: two shapes sharing rect and transform but with
different positions and rotations serialize identically. -/
theorem record_depends_only_rect_transform_witness :
    mkRecord { mkItem ⟨1, 2, 3, 4⟩ with posX := 7, posY := 8, rotation := 5 } =
      mkRecord (mkItem ⟨1, 2, 3, 4⟩) :=
  record_depends_only_rect_transform.1 _ _ rfl rfl

/-- Counterexample to C2: with two shapes in the collection, the saved
document is not in insertion order (the first-created shape is not the
first array entry). -/
theorem save_not_insertion_order :
    saveRecords wTwoItems ≠ wTwoItems.items.map mkRecord := by
  norm_num [saveRecords, sceneItems, wTwoItems, mkRecord, mkItem, idT,
    SavedRecord.mk.injEq]

/-- C2 amended: `save_rectangles` iterates `scene.items()` (descending
stacking order), so it emits the records in reverse insertion order —
the last-created shape is the first array entry. -/
theorem save_reverse_insertion_order (w : Window) :
    saveRecords w = (w.items.map mkRecord).reverse := by
  simp [saveRecords, sceneItems, List.map_reverse]

/-- C9: `set_transform_mode` changes only the global mode, the
cached mode of each shape, and its handle layout (recomputed for every
shape); every other per-shape field — in particular the base rect — is
unchanged, and mode round-trips such as rotation-then-scaling leave the
rects exactly as they were. -/
theorem set_mode_isolation (w : Window) (m : TMode) :
    (setTransformMode w m).transform_mode = m ∧
    (setTransformMode w m).items.map Item.rect = w.items.map Item.rect ∧
    (setTransformMode w m).items.map Item.transform = w.items.map Item.transform ∧
    (setTransformMode w m).items.map Item.rotation = w.items.map Item.rotation ∧
    (setTransformMode w m).items.map Item.original_corners
      = w.items.map Item.original_corners ∧
    (setTransformMode w m).items.map Item.transform_mode
      = w.items.map (fun _ => m) ∧
    (setTransformMode w m).items.map Item.handles
      = w.items.map (fun it => updateHandles m it.rect) ∧
    (setTransformMode (setTransformMode w TMode.rotation) TMode.scaling).items.map
      Item.rect = w.items.map Item.rect := by
  refine ⟨rfl, ?_, ?_, ?_, ?_, ?_, ?_, ?_⟩ <;>
    simp [setTransformMode, List.map_map, Function.comp_def]

/-- Helper for the load claims: a prefix of parseable records is folded
into the collection one by one, in file order, before the loop reaches
the rest of the document. -/
theorem loadLoop_append (good rs : List RecordJson) (w : Window)
    (h : ∀ r ∈ good, (parseRecord w.transform_mode r).isSome) :
    loadLoop w (good ++ rs) =
      loadLoop
        { w with items := w.items ++ good.filterMap (parseRecord w.transform_mode) }
        rs := by
  induction good generalizing w with
  | nil => simp [List.filterMap_nil]
  | cons r rest ih =>
    obtain ⟨it, hit⟩ := Option.isSome_iff_exists.mp (h r (by simp))
    have hrest : ∀ x ∈ rest, (parseRecord w.transform_mode x).isSome := by
      intro x hx
      exact h x (by simp [hx])
    have step1 : loadLoop w ((r :: rest) ++ rs) =
        loadLoop { w with items := w.items ++ [it] } (rest ++ rs) := by
      simp only [List.cons_append, loadLoop, hit]
      rfl
    rw [step1, ih { w with items := w.items ++ [it] } hrest]
    simp [List.filterMap_cons, hit, List.append_assoc]

/-- Counterexample to C1: loading a one-entry document whose entry lacks
`"width"` reports failure but does NOT leave the collection as it was —
`scene.clear()` has already run, so the previously loaded shape is gone. -/
theorem load_missing_field_clears_scene :
    (loadRectangles wOneItem (some [badJson])).2 = false ∧
    (loadRectangles wOneItem (some [badJson])).1.items ≠ wOneItem.items := by
  constructor
  · rfl
  · have hred : (loadRectangles wOneItem (some [badJson])).1.items = [] := rfl
    rw [hred]
    simp [wOneItem]

/-- C1 amended: load is all-or-nothing only for failures of `json.load`
itself (I/O error or malformed JSON), which leave the collection
untouched; a record-level failure (missing field) happens after the
scene is cleared, reports failure, and leaves the collection holding
exactly the items parsed from the records before the failing one. -/
theorem load_failure_modes (w : Window) (good : List RecordJson)
    (bad : RecordJson) (rest : List RecordJson)
    (hgood : ∀ r ∈ good, (parseRecord w.transform_mode r).isSome)
    (hbad : parseRecord w.transform_mode bad = none) :
    loadRectangles w none = (w, false) ∧
    (loadRectangles w (some (good ++ bad :: rest))).2 = false ∧
    (loadRectangles w (some (good ++ bad :: rest))).1.items
      = good.filterMap (parseRecord w.transform_mode) := by
  have hstep := loadLoop_append good (bad :: rest) { w with items := [] } hgood
  refine ⟨rfl, ?_, ?_⟩
  · show (loadLoop { w with items := [] } (good ++ bad :: rest)).2 = false
    rw [hstep]
    simp [loadLoop, hbad]
  · show (loadLoop { w with items := [] } (good ++ bad :: rest)).1.items = _
    rw [hstep]
    simp [loadLoop, hbad]

/-- Witness for C1 amended: one good record then one record missing
`"width"`; the load fails and the collection holds exactly the item of
the good record (not the pre-load collection). -/
theorem load_failure_modes_witness :
    loadRectangles wOneItem none = (wOneItem, false) ∧
    (loadRectangles wOneItem (some ([goodJson] ++ [badJson]))).2 = false ∧
    (loadRectangles wOneItem (some ([goodJson] ++ [badJson]))).1.items
      = [goodJson].filterMap (parseRecord wOneItem.transform_mode) :=
  load_failure_modes wOneItem [goodJson] badJson []
    (by
      intro r hr
      rw [List.mem_singleton] at hr
      subst hr
      rfl)
    rfl

/-- Helper for the round-trip claim: loading the serialized records of a
list of items appends items with exactly the same rect and transform, in
document order. -/
theorem loadLoop_roundtrip (its : List Item) (w : Window) :
    (loadLoop w (its.map fun it => recordToJson (mkRecord it))).2 = true ∧
    (loadLoop w (its.map fun it => recordToJson (mkRecord it))).1.items.map itemGeom
      = w.items.map itemGeom ++ its.map itemGeom := by
  induction its generalizing w with
  | nil => simp [loadLoop]
  | cons it rest ih =>
    have hparse : parseRecord w.transform_mode (recordToJson (mkRecord it)) =
        some { mkItem it.rect with
                 transform := it.transform,
                 transform_mode := w.transform_mode,
                 handles := updateHandles w.transform_mode it.rect } := rfl
    simp only [List.map_cons, loadLoop, hparse]
    have := ih { w with items := w.items ++
      [{ mkItem it.rect with
           transform := it.transform,
           transform_mode := w.transform_mode,
           handles := updateHandles w.transform_mode it.rect }] }
    refine ⟨this.1, ?_⟩
    rw [this.2]
    simp [itemGeom, mkItem, List.append_assoc]

/-- C3: deserializing the document produced by serializing a collection
succeeds and reproduces, for every shape, exactly the same base-rect
fields (x, y, width, height) and the same nine transform entries; as
lists of (rect, transform) data the result is the reverse of the
original (document order is Qt stacking order), in particular a
permutation carrying each shape to one with identical fields. -/
theorem save_load_roundtrip (w w2 : Window) :
    (loadRectangles w2 (some ((saveRecords w).map recordToJson))).2 = true ∧
    (loadRectangles w2 (some ((saveRecords w).map recordToJson))).1.items.map itemGeom
      = (w.items.map itemGeom).reverse ∧
    ((loadRectangles w2 (some ((saveRecords w).map recordToJson))).1.items.map
      itemGeom).Perm (w.items.map itemGeom) := by
  have hdoc : (saveRecords w).map recordToJson
      = (w.items.reverse).map fun it => recordToJson (mkRecord it) := by
    simp [saveRecords, sceneItems, List.map_map, Function.comp_def]
  have h := loadLoop_roundtrip w.items.reverse { w2 with items := [] }
  rw [hdoc]
  show (loadLoop { w2 with items := [] } _).2 = true ∧ _ ∧ _
  refine ⟨h.1, ?_, ?_⟩
  · show (loadLoop { w2 with items := [] } _).1.items.map itemGeom = _
    rw [h.2]
    simp [List.map_reverse]
  · show ((loadLoop { w2 with items := [] } _).1.items.map itemGeom).Perm _
    rw [h.2]
    simp [List.map_reverse]

/-- Counterexample to C6: a scaling-mode corner drag does not normalize
the rect — dragging `bottom_right` of `(0,0,100,50)` to `(-10,-10)`
leaves width and height negative. -/
theorem resize_negative_width :
    ¬ (0 ≤ (resizeItem itScaling ⟨-10, -10⟩).rect.w ∧
       0 ≤ (resizeItem itScaling ⟨-10, -10⟩).rect.h) := by
  have h : (resizeItem itScaling ⟨-10, -10⟩).rect = ⟨0, 0, -10, -10⟩ := by
    norm_num [resizeItem, itScaling, mkItem, RectF.setBottomRight, RectF.mk.injEq]
  rw [h]
  norm_num

/-- C6 amended: the non-negativity invariant holds for the
draw-new-rectangle gesture — the rect is created at zero size and every
draw step stores a normalized rect — but scaling-mode corner drags do
not normalize and can produce negative width/height. -/
theorem draw_step_normalized (w : Window) (p start cur : Pt) :
    (0 ≤ (drawStepRect start cur).w ∧ 0 ≤ (drawStepRect start cur).h) ∧
    ∀ it ∈ (windowMousePress w p).current_rect, it.rect.w = 0 ∧ it.rect.h = 0 := by
  constructor
  · unfold drawStepRect RectF.normalized RectF.fromPoints
    dsimp only
    split_ifs <;> constructor <;> (dsimp only at *) <;> linarith
  · intro it hit
    simp only [windowMousePress, Option.mem_def, Option.some.injEq] at hit
    subst hit
    constructor <;> simp [mkItem, RectF.fromPoints]

/-- Witness for C6 amended: a concrete down-left draw step stores a
non-negative rect, and a concrete press creates a zero-size rect. -/
theorem draw_step_normalized_witness :
    (0 ≤ (drawStepRect ⟨0, 0⟩ ⟨-5, -7⟩).w ∧ 0 ≤ (drawStepRect ⟨0, 0⟩ ⟨-5, -7⟩).h) ∧
    ({ mkItem (RectF.fromPoints ⟨3, 4⟩ ⟨3, 4⟩) with
        transform_mode := wOneItem.transform_mode } : Item).rect.w = 0 := by
  have h := draw_step_normalized wOneItem ⟨3, 4⟩ ⟨0, 0⟩ ⟨-5, -7⟩
  exact ⟨h.1, (h.2 _ rfl).1⟩

theorem lineAngleTheta_up : lineAngleTheta ⟨0, 0⟩ ⟨0, -10⟩ = 90 := by
  unfold lineAngleTheta atan2
  norm_num
  field_simp [Real.pi_ne_zero]
  ring

theorem lineAngle_up : lineAngle ⟨0, 0⟩ ⟨0, -10⟩ = 90 := by
  unfold lineAngle lineAngleNorm
  rw [lineAngleTheta_up]
  norm_num

theorem itRotation_center : itRotation.rect.center = ⟨0, 0⟩ := by
  norm_num [itRotation, mkItem, RectF.center, Pt.mk.injEq]

/-- Counterexample to C7: the rotation drag does set the rotation value
to the negated ray angle, but it is NOT applied as a mutation of the
3x3 applied transform pivoting about the shape centre —
`rotate_item` calls `setRotation`, a separate property, and leaves
`transform()` untouched; with the pointer straight above a
centre-at-origin shape the claimed pivoting transform would move
`(10, 0)`, while the actual applied transform is still the identity. -/
theorem rotation_not_transform_mutation : ¬ RotationDragClaim := by
  intro hcl
  have h2 := (hcl itRotation ⟨0, -10⟩).2
  unfold IsRotationAboutCenterDeg at h2
  have h3 := h2 10 0
  have htr : (rotateItem itRotation ⟨0, -10⟩).transform = idT := rfl
  have hrot : Item.rotation (rotateItem itRotation ⟨0, -10⟩) = -90 := by
    show -(lineAngle itRotation.rect.center ⟨0, -10⟩) = -90
    rw [itRotation_center, lineAngle_up]
  rw [htr, hrot, itRotation_center] at h3
  have hL : mapPointR idT 10 0 = (10, 0) := by
    simp only [mapPointR, idT]
    norm_num
  have hR : rotateAboutDeg ⟨0, 0⟩ (-90 : ℝ) 10 0 = (0, -10) := by
    simp only [rotateAboutDeg]
    have ha : (-90 : ℝ) * Real.pi / 180 = -(Real.pi / 2) := by ring
    rw [ha, Real.cos_neg, Real.sin_neg, Real.cos_pi_div_two, Real.sin_pi_div_two]
    norm_num
  rw [hL, hR] at h3
  have h4 := congrArg Prod.fst h3
  norm_num at h4

/-- C7 amended: the rotation drag sets the separate rotation
property (Qt `setRotation`) to the negated ray angle from the rect
centre to the pointer; the 3x3 applied transform, the base rect and the
item position are left unchanged (Qt applies the rotation property
about the item `transformOriginPoint`, which stays at the default
origin — not the shape centre — and it is never serialized). -/
theorem rotate_item_spec (it : Item) (pos : Pt) :
    Item.rotation (rotateItem it pos) = -(lineAngle it.rect.center pos) ∧
    (rotateItem it pos).transform = it.transform ∧
    (rotateItem it pos).rect = it.rect ∧
    (rotateItem it pos).posX = it.posX ∧
    (rotateItem it pos).posY = it.posY :=
  ⟨rfl, rfl, rfl, rfl, rfl⟩

end Editor2D
